import Mathlib

/-!
Shallow embedding of the boostgo/worker repository: the periodic worker
(scheduler with before/after middlewares, error handler and stop/done
signalling) and the Redis-backed distributed locker.

Go durations are modelled as natural numbers of nanoseconds; Go errors as an
inductive type with the distinguished `ErrLocked` sentinel (declared in a
repository file outside the provided sources; only its identity matters) and
a message constructor for all other errors.  External effects (Redis calls,
ticker firings, context cancellation) are passed in as explicit oracle
arguments, so every function below is a pure translation of the Go control
flow it names.
-/

/-- Go error values as seen by this package: the `ErrLocked` sentinel
(compared with `errors.Is`) or an ordinary error carrying a message. -/
inductive GoErr where
  | errLocked : GoErr
  | msg : String → GoErr
deriving DecidableEq, Repr

/-- One second, in nanoseconds (Go's `time.Second`). -/
def second : Nat := 1000000000

/-- Configuration state of `Worker` (fields of the struct that the embedded
control flow reads; channels are modelled by the event oracles below and the
middleware slices by per-tick result lists). -/
structure Worker where
  name : String
  fromStart : Bool
  duration : Nat
  timeout : Nat
  errorHandler : Option (GoErr → Bool)

/-- Embeds `NewWorker`: duration set, no timeout, no error handler. -/
def NewWorker (name : String) (duration : Nat) : Worker :=
  Worker.mk name false duration 0 none

/-- Embeds the builder `Worker.Timeout`. -/
def Worker.Timeout (w : Worker) (t : Nat) : Worker :=
  Worker.mk w.name w.fromStart w.duration t w.errorHandler

/-- Embeds the builder `Worker.ErrorHandler` (a nil handler is ignored). -/
def Worker.ErrorHandler (w : Worker) (h : Option (GoErr → Bool)) : Worker :=
  match h with
  | none => w
  | some f => Worker.mk w.name w.fromStart w.duration w.timeout (some f)

/-- Embeds the before-middleware loop of `Worker.runAction`: given the error
each registered middleware would return when invoked, walks the list in
order; a middleware returning `ErrLocked` sets the `locked` flag, after which
the loop breaks (the `continue` followed by the `if locked break` on the next
iteration).  Returns how many middlewares were invoked and the final
`locked` flag.  Other errors are only logged and do not stop the walk. -/
def runBefores : List (Option GoErr) → Nat × Bool
  | [] => (0, false)
  | e :: rest =>
    if e = some GoErr.errLocked then (1, true)
    else
      let p := runBefores rest
      (p.1 + 1, p.2)

/-- Observable trace of one `Worker.runAction` call: the deadline of the
derived context (if any), how many before-middlewares were invoked, whether
the action ran, how many after-middlewares ran, and the error the closure
passed to `errorx.TryContext` returned. -/
structure TickTrace where
  ctxDeadline : Option Nat
  beforesInvoked : Nat
  actionRan : Bool
  aftersInvoked : Nat
  innerResult : Option GoErr
deriving DecidableEq, Repr

/-- Embeds `Worker.runAction` (the middleware variant): builds a context with
deadline `timeout + time.Second` when a timeout is configured, runs the
before-middlewares, then—unless a middleware reported `ErrLocked`—the action
and, in a deferred block, every after-middleware (whose errors are only
logged).  `errorx.TryContext` is external to the repository and is modelled
as returning the closure's error for the non-panicking executions considered
here; that error is logged and `runAction` then returns `nil`, which is the
first component of the result.  Oracle arguments: the error each
before-middleware would return, the action's error, and the number of
registered after-middlewares. -/
def Worker.runAction (w : Worker) (befores : List (Option GoErr))
    (act : Option GoErr) (afterCount : Nat) : Option GoErr × TickTrace :=
  let deadline := if 0 < w.timeout then some (w.timeout + second) else none
  let p := runBefores befores
  if p.2 then (none, TickTrace.mk deadline p.1 false 0 none)
  else (none, TickTrace.mk deadline p.1 true afterCount act)

/-- One resolution of the `select` in `Worker.Run`'s loop: the external
application context fired, the internal stopper channel fired, or the ticker
fired (carrying the oracle data for that tick's `runAction` call). -/
inductive SchedEvent where
  | ctxDone : SchedEvent
  | stopSig : SchedEvent
  | tick : List (Option GoErr) → Option GoErr → Nat → SchedEvent
deriving DecidableEq, Repr

/-- Observable trace of the scheduler loop over a sequence of select
resolutions: how many times the `done` channel was signalled, how many ticks
ran an action cycle, how many times the error handler was invoked, and how
many times the internal stopper was signalled from the handler branch. -/
structure LoopTrace where
  doneSignals : Nat
  ticks : Nat
  handlerCalls : Nat
  stopsRaised : Nat
deriving DecidableEq, Repr

/-- Embeds the `for { select { ... } }` loop of `Worker.Run`: on the external
context or the internal stopper firing, signal `done` once and return; on a
ticker fire, call `runAction` and, when it returns a non-nil error and an
error handler is configured, call the handler and signal the stopper if it
returns `false`, then continue with the remaining events.  An exhausted
event list models a loop still blocked in `select`. -/
def Worker.runLoop (w : Worker) : List SchedEvent → LoopTrace
  | [] => LoopTrace.mk 0 0 0 0
  | SchedEvent.ctxDone :: _ => LoopTrace.mk 1 0 0 0
  | SchedEvent.stopSig :: _ => LoopTrace.mk 1 0 0 0
  | SchedEvent.tick b a n :: rest =>
    let err := (w.runAction b a n).1
    let hc : Nat :=
      match err, w.errorHandler with
      | some _, some _ => 1
      | _, _ => 0
    let st : Nat :=
      match err, w.errorHandler with
      | some e, some h => if h e then 0 else 1
      | _, _ => 0
    let r := Worker.runLoop w rest
    LoopTrace.mk r.doneSignals (r.ticks + 1) (r.handlerCalls + hc) (r.stopsRaised + st)

/-- Recognises a ticker event of the scheduler loop. -/
def isTick : SchedEvent → Bool
  | SchedEvent.tick _ _ _ => true
  | _ => false

/-- Recognises a stop event (external cancellation or internal stopper). -/
def isStopEvent : SchedEvent → Bool
  | SchedEvent.ctxDone => true
  | SchedEvent.stopSig => true
  | SchedEvent.tick _ _ _ => false

/-- Outcome of invoking the function passed to `try` (the legacy worker
variant in this repository): a normal return carrying a Go error value
(possibly nil), or a panic whose value formats (`fmt  "%v"`) to the given
string. -/
inductive FnOutcome where
  | ret : Option GoErr → FnOutcome
  | panicked : String → FnOutcome
deriving DecidableEq, Repr

/-- Embeds the repository's `try` function (named `tryRecover` here because
`try` is reserved in Lean).  Its deferred block runs on every exit path and,
whenever the named return value `err` is still nil, overwrites it with
`errors.New(fmt.Sprintf("%v", recover()))`: a panic with value `v` becomes
the error `v`, but a normal nil return also becomes the error `"<nil>"`
(formatting the nil result of `recover`).  A normal non-nil return is kept. -/
def tryRecover : FnOutcome → Option GoErr
  | FnOutcome.ret (some e) => some e
  | FnOutcome.ret none => some (GoErr.msg "<nil>")
  | FnOutcome.panicked v => some (GoErr.msg v)

/-- State of the single Redis key a `Locker` manages: absent, or present with
a value and a remaining expiry. -/
abbrev Store := Option (String × Nat)

/-- Configuration of `Locker` (the context/cancel pair is modelled by the
renewal-loop oracle below). -/
structure Locker where
  lockKey : String
  lockValue : String
  lockTTL : Nat
  renewInterval : Nat
deriving DecidableEq, Repr

/-- Embeds `NewLocker`: key `"worker:lock:" + name`, the random token of
`generateLockValue` abstracted as the `lockValue` argument, and the renewal
interval set to a third of the TTL. -/
def NewLocker (workerName : String) (lockValue : String) (lockTTL : Nat) : Locker :=
  Locker.mk ("worker:lock:" ++ workerName) lockValue lockTTL (lockTTL / 3)

/-- Redis `SET key value NX EX ttl` on the locker's key: creates the record
only when the key is absent; returns the updated store and whether the set
happened. -/
def setNX (st : Store) (v : String) (ttl : Nat) : Store × Bool :=
  match st with
  | none => (some (v, ttl), true)
  | some p => (some p, false)

/-- Whether the store currently holds the given token under the locker's
key. -/
def holdsToken : Store → String → Bool
  | some (v, _), token => v == token
  | none, _ => false

/-- Observable result of `Locker.TryLock`: the store afterwards, the returned
error, and whether the background renewal goroutine was started. -/
structure TryLockResult where
  store : Store
  err : Option GoErr
  renewStarted : Bool
deriving DecidableEq, Repr

/-- Embeds `Locker.TryLock`: calls `SetNX`; a store error is wrapped and
returned; `false` from `SetNX` (key already present) yields `ErrLocked`;
otherwise the renewal loop is started and nil is returned.  The oracle
`storeFail` carries the message of a failing `SetNX` call (which then leaves
the store unchanged). -/
def Locker.TryLock (l : Locker) (storeFail : Option String) (st : Store) : TryLockResult :=
  match storeFail with
  | some m => TryLockResult.mk st (some (GoErr.msg ("failed to acquire lock: " ++ m))) false
  | none =>
    let p := setNX st l.lockValue l.lockTTL
    if p.2 then TryLockResult.mk p.1 none true
    else TryLockResult.mk p.1 (some GoErr.errLocked) false

/-- The compare-and-delete Lua script of `Locker.Unlock`: deletes the key
only when its current value equals the expected token; returns the store
afterwards and the script's numeric result (1 = deleted, 0 = untouched). -/
def compareDelete (st : Store) (expected : String) : Store × Nat :=
  match st with
  | some (v, t) => if v = expected then (none, 1) else (some (v, t), 0)
  | none => (none, 0)

/-- Observable result of `Locker.Unlock`: the store afterwards, the returned
error, and whether the renewal loop's context was cancelled. -/
structure UnlockResult where
  store : Store
  err : Option String
  renewCancelled : Bool
deriving DecidableEq, Repr

/-- Embeds `Locker.Unlock`: cancels the renewal context when one exists
(`hasCancel`), then runs the compare-and-delete script via `Eval` and
returns its error.  The oracle `storeFail` carries the message of a failing
`Eval` call (which then leaves the store unchanged). -/
def Locker.Unlock (l : Locker) (hasCancel : Bool) (storeFail : Option String)
    (st : Store) : UnlockResult :=
  match storeFail with
  | some m => UnlockResult.mk st (some m) hasCancel
  | none => UnlockResult.mk (compareDelete st l.lockValue).1 none hasCancel

/-- The compare-and-extend Lua script of `Locker.renewLock`: resets the
expiry to the given TTL only when the current value equals the expected
token; returns the store afterwards and the script's numeric result
(1 = extended, 0 = untouched). -/
def compareExtend (st : Store) (expected : String) (ttl : Nat) : Store × Nat :=
  match st with
  | some (v, t) => if v = expected then (some (v, ttl), 1) else (some (v, t), 0)
  | none => (none, 0)

/-- One resolution of the `select` in `Locker.renewLock`: the loop's context
fired, or the renewal ticker fired (carrying a possible `Eval` failure and
the store content the script would observe at that moment). -/
inductive RenewEvent where
  | ctxDone : RenewEvent
  | tick : Option String → Store → RenewEvent
deriving DecidableEq, Repr

/-- Whether a renewal tick succeeds: the `Eval` call returned no error and
the compare-and-extend script returned a non-zero result. -/
def renewTickOk (l : Locker) (storeFail : Option String) (st : Store) : Bool :=
  match storeFail with
  | some _ => false
  | none => (compareExtend st l.lockValue l.lockTTL).2 != 0

/-- A renewal-loop event that keeps the loop running: a tick whose renewal
succeeds (a context-done event exits the loop instead). -/
def goodTick (l : Locker) : RenewEvent → Bool
  | RenewEvent.ctxDone => false
  | RenewEvent.tick f st => renewTickOk l f st

/-- Observable trace of `Locker.renewLock` over a sequence of select
resolutions: whether the loop cancelled its own context, how many renewals
(successful TTL extensions) it performed, and how many events it consumed
before returning (all of them when it never returned). -/
structure RenewTrace where
  cancelled : Bool
  renewals : Nat
  eventsSeen : Nat
deriving DecidableEq, Repr

/-- Embeds the `for { select { ... } }` loop of `Locker.renewLock`: a
context-done event returns without cancelling; a ticker event runs the
compare-and-extend script and, when the call errors or the script returns 0,
calls `l.cancel()` and returns; otherwise the loop continues with the
remaining events. -/
def Locker.renewLock (l : Locker) : List RenewEvent → RenewTrace
  | [] => RenewTrace.mk false 0 0
  | RenewEvent.ctxDone :: _ => RenewTrace.mk false 0 1
  | RenewEvent.tick f st :: rest =>
    if renewTickOk l f st then
      let r := Locker.renewLock l rest
      RenewTrace.mk r.cancelled (r.renewals + 1) (r.eventsSeen + 1)
    else RenewTrace.mk true 0 1

/-- Embeds `Locker.IsLocked`: reads the key (`getRes` is the `Get` call's
result); any read error yields `false`, otherwise the value is compared to
this instance's token. -/
def Locker.IsLocked (l : Locker) (getRes : Except String String) : Bool :=
  match getRes with
  | Except.error _ => false
  | Except.ok v => v == l.lockValue

/-- Observable result of the watcher middleware: the error it returns and
whether the background `monitorLock` goroutine was started. -/
structure CancelOutcome where
  err : Option GoErr
  monitorStarted : Bool
deriving DecidableEq, Repr

/-- Embeds `CancelRunningWorker.Middleware`: returns `ErrLocked` when
`IsLocked` reports that this instance does not own the lock; otherwise
derives a cancellable context, starts `monitorLock` in the background and
returns nil. -/
def CancelRunningWorker.Middleware (l : Locker) (getRes : Except String String) : CancelOutcome :=
  if l.IsLocked getRes then CancelOutcome.mk none true
  else CancelOutcome.mk (some GoErr.errLocked) false

/-! Helper lemmas shared by the claim theorems. -/

/-- The middleware-variant `runAction` swallows the inner error: it logs it
and unconditionally returns nil. -/
lemma runAction_fst_none (w : Worker) (b : List (Option GoErr)) (a : Option GoErr)
    (n : Nat) : (w.runAction b a n).1 = none := by
  unfold Worker.runAction
  by_cases h : (runBefores b).2 <;> simp [h]

/-- When no before-middleware reports `ErrLocked`, every one of them is
invoked and the locked flag stays clear. -/
lemma runBefores_no_lock (bs : List (Option GoErr))
    (h : ∀ e ∈ bs, e ≠ some GoErr.errLocked) :
    runBefores bs = (bs.length, false) := by
  induction bs with
  | nil => rfl
  | cons e rest ih =>
    have he : e ≠ some GoErr.errLocked := h e (List.mem_cons_self e rest)
    have hr := ih (fun x hx => h x (List.mem_cons_of_mem e hx))
    simp [runBefores, he, hr]

/-- The first `ErrLocked` stops the before-middleware walk: everything up to
and including it is invoked, nothing after it, and the locked flag is set. -/
lemma runBefores_first_lock (pre rest : List (Option GoErr))
    (h : ∀ e ∈ pre, e ≠ some GoErr.errLocked) :
    runBefores (pre ++ some GoErr.errLocked :: rest) = (pre.length + 1, true) := by
  induction pre with
  | nil => simp [runBefores]
  | cons e p ih =>
    have he : e ≠ some GoErr.errLocked := h e (List.mem_cons_self e p)
    have hr := ih (fun x hx => h x (List.mem_cons_of_mem e hx))
    simp [runBefores, he, hr]

/-- A run of successful renewal ticks followed by a failing tick makes
`renewLock` cancel and return right at the failure, with one renewal per
successful tick and the events after the failure never examined. -/
lemma renewLock_stops_at_failure (l : Locker) (goods rest : List RenewEvent)
    (f : Option String) (st : Store)
    (hg : ∀ ev ∈ goods, goodTick l ev = true)
    (hb : renewTickOk l f st = false) :
    l.renewLock (goods ++ RenewEvent.tick f st :: rest) =
      RenewTrace.mk true goods.length (goods.length + 1) := by
  induction goods with
  | nil => simp [Locker.renewLock, hb]
  | cons e g ih =>
    have he := hg e (List.mem_cons_self e g)
    have hr := ih (fun x hx => hg x (List.mem_cons_of_mem e hx))
    cases e with
    | ctxDone => simp [goodTick] at he
    | tick f2 s2 =>
      have hok : renewTickOk l f2 s2 = true := by simpa [goodTick] using he
      simp [Locker.renewLock, hok, hr]

/-- The scheduler loop's behaviour does not depend on the configured
timeout. -/
lemma runLoop_timeout_irrelevant (w : Worker) (t1 t2 : Nat) (evs : List SchedEvent) :
    Worker.runLoop (Worker.mk w.name w.fromStart w.duration t1 w.errorHandler) evs =
      Worker.runLoop (Worker.mk w.name w.fromStart w.duration t2 w.errorHandler) evs := by
  induction evs with
  | nil => rfl
  | cons e rest ih =>
    cases e with
    | ctxDone => rfl
    | stopSig => rfl
    | tick b a n => simp [Worker.runLoop, runAction_fst_none, ih]

/-! Claim theorems. -/

/-- C1: the claim says that on every tick whose action returns a non-nil
error the scheduler invokes the configured error handler with it, a `false`
result raising the stop signal.  The code violates this: `Worker.runAction`
logs the error returned by the `errorx.TryContext` closure and
unconditionally returns nil, so the handler branch in `Worker.Run`'s loop is
unreachable — the handler is never called and the stopper is never raised
from it, whatever the action returns. -/
theorem c1_error_handler_unreachable :
    (∀ (w : Worker) (b : List (Option GoErr)) (a : Option GoErr) (n : Nat),
        (w.runAction b a n).1 = none) ∧
    (∀ (w : Worker) (evs : List SchedEvent),
        (w.runLoop evs).handlerCalls = 0 ∧ (w.runLoop evs).stopsRaised = 0) := by
  refine ⟨runAction_fst_none, ?_⟩
  intro w evs
  induction evs with
  | nil => exact ⟨rfl, rfl⟩
  | cons e rest ih =>
    cases e with
    | ctxDone => exact ⟨rfl, rfl⟩
    | stopSig => exact ⟨rfl, rfl⟩
    | tick b a n => simp [Worker.runLoop, runAction_fst_none, ih.1, ih.2]

/-- C2: in every tick, the first before-middleware returning `ErrLocked`
stops the before walk (everything before it plus itself is invoked, nothing
later), the action does not run and no after-middleware runs; when no
before-middleware returns `ErrLocked` (other errors included), the action
runs and all after-middlewares run. -/
theorem c2_errlocked_skips_tick (w : Worker) (pre rest : List (Option GoErr))
    (act : Option GoErr) (n : Nat)
    (hpre : ∀ e ∈ pre, e ≠ some GoErr.errLocked) :
    (w.runAction (pre ++ some GoErr.errLocked :: rest) act n).2.beforesInvoked
        = pre.length + 1 ∧
    (w.runAction (pre ++ some GoErr.errLocked :: rest) act n).2.actionRan = false ∧
    (w.runAction (pre ++ some GoErr.errLocked :: rest) act n).2.aftersInvoked = 0 ∧
    (w.runAction pre act n).2.beforesInvoked = pre.length ∧
    (w.runAction pre act n).2.actionRan = true ∧
    (w.runAction pre act n).2.aftersInvoked = n := by
  have h1 := runBefores_first_lock pre rest hpre
  have h2 := runBefores_no_lock pre hpre
  simp [Worker.runAction, h1, h2]

/-- C2 witness: two non-contention before results (an ordinary error and
nil), then `ErrLocked`, then one more middleware: three befores invoked, the
action and the two afters suppressed; without the contention suffix the
action and both afters run. -/
theorem c2_errlocked_skips_tick_witness :
    ((NewWorker "w" 5).runAction
        ([some (GoErr.msg "x"), none] ++ some GoErr.errLocked :: [none])
        (some (GoErr.msg "boom")) 2).2.beforesInvoked
        = [some (GoErr.msg "x"), none].length + 1 ∧
    ((NewWorker "w" 5).runAction
        ([some (GoErr.msg "x"), none] ++ some GoErr.errLocked :: [none])
        (some (GoErr.msg "boom")) 2).2.actionRan = false ∧
    ((NewWorker "w" 5).runAction
        ([some (GoErr.msg "x"), none] ++ some GoErr.errLocked :: [none])
        (some (GoErr.msg "boom")) 2).2.aftersInvoked = 0 ∧
    ((NewWorker "w" 5).runAction [some (GoErr.msg "x"), none]
        (some (GoErr.msg "boom")) 2).2.beforesInvoked
        = [some (GoErr.msg "x"), none].length ∧
    ((NewWorker "w" 5).runAction [some (GoErr.msg "x"), none]
        (some (GoErr.msg "boom")) 2).2.actionRan = true ∧
    ((NewWorker "w" 5).runAction [some (GoErr.msg "x"), none]
        (some (GoErr.msg "boom")) 2).2.aftersInvoked = 2 :=
  c2_errlocked_skips_tick (NewWorker "w" 5) [some (GoErr.msg "x"), none] [none]
    (some (GoErr.msg "boom")) 2 (by decide)

/-- C3: the claim says a panic is converted to an ordinary error (true: a
panic formatting to `v` becomes the error `v`) and that a normal nil return
yields a nil error.  The code violates the second half: `try`'s deferred
block tests `err == nil` instead of `recover() != nil`, so a normal nil
return is overwritten with the fabricated error `"<nil>"`. -/
theorem c3_try_fabricates_error_on_nil :
    tryRecover (FnOutcome.ret none) = some (GoErr.msg "<nil>") ∧
    (∀ v, tryRecover (FnOutcome.panicked v) = some (GoErr.msg v)) ∧
    (∀ e, tryRecover (FnOutcome.ret (some e)) = some e) :=
  ⟨rfl, fun _ => rfl, fun _ => rfl⟩

/-- Concrete locker used by the C4 counterexample. -/
def c4Locker : Locker := NewLocker "job" "tokenA" 30

/-- C4 counterexample: the claim says `TryLock` returns `ErrLocked` only when
the key holds a DIFFERENT value than this instance's token.  Here the key
holds exactly this instance's own token, yet `SetNX` fails because the key
exists and `TryLock` still returns `ErrLocked`. -/
theorem c4_trylock_counterexample :
    (c4Locker.TryLock none (some (c4Locker.lockValue, 7))).err = some GoErr.errLocked ∧
    holdsToken (some (c4Locker.lockValue, 7)) c4Locker.lockValue = true := by
  exact ⟨rfl, by simp [holdsToken]⟩

/-- C4 amended: when the store call succeeds, `TryLock` returns `ErrLocked`
if and only if the key is already present (with any value, its own token
included); on an absent key it creates the record `key = token` with expiry
`ttl` and starts the renewal loop. -/
theorem c4_trylock_amended (l : Locker) (st : Store) :
    ((l.TryLock none st).err = some GoErr.errLocked ↔ st ≠ none) ∧
    (l.TryLock none none).store = some (l.lockValue, l.lockTTL) ∧
    (l.TryLock none none).renewStarted = true := by
  refine ⟨?_, rfl, rfl⟩
  cases st with
  | none => simp [Locker.TryLock, setNX]
  | some p => simp [Locker.TryLock, setNX]

/-- C5: `Unlock` cancels the renewal context when one exists and deletes the
record exactly when its current value equals this instance's token; a key
holding a foreign value (or no key) is left unchanged. -/
theorem c5_unlock_compare_and_delete (l : Locker) (c : Bool) (st : Store) :
    (l.Unlock c none st).store = (if holdsToken st l.lockValue then none else st) ∧
    (l.Unlock c none st).renewCancelled = c := by
  refine ⟨?_, rfl⟩
  cases st with
  | none => simp [Locker.Unlock, compareDelete, holdsToken]
  | some p =>
    by_cases h : p.1 = l.lockValue
    · simp [Locker.Unlock, compareDelete, holdsToken, h]
    · simp [Locker.Unlock, compareDelete, holdsToken, h]

/-- C6: the renewal loop is configured to tick at `ttl / 3`; the
compare-and-extend script resets the expiry only when the stored value still
equals this instance's token; and a tick whose store call errors or whose
compare fails makes the loop cancel its own context and return right there —
the events after the failing tick are never examined, so no further renewal
is ever attempted. -/
theorem c6_renewal_loop (name v : String) (ttl : Nat) (l : Locker)
    (goods rest rest2 : List RenewEvent) (f : Option String)
    (st s : Store) (tok : String) (t : Nat)
    (hg : ∀ ev ∈ goods, goodTick l ev = true)
    (hb : renewTickOk l f st = false) :
    (NewLocker name v ttl).renewInterval = ttl / 3 ∧
    (compareExtend s tok t).1 = (if holdsToken s tok then some (tok, t) else s) ∧
    l.renewLock (goods ++ RenewEvent.tick f st :: rest) =
      RenewTrace.mk true goods.length (goods.length + 1) ∧
    l.renewLock (goods ++ RenewEvent.tick f st :: rest) =
      l.renewLock (goods ++ RenewEvent.tick f st :: rest2) := by
  refine ⟨rfl, ?_, renewLock_stops_at_failure l goods rest f st hg hb, ?_⟩
  · cases s with
    | none => simp [compareExtend, holdsToken]
    | some p =>
      by_cases h : p.1 = tok
      · simp [compareExtend, holdsToken, h]
      · simp [compareExtend, holdsToken, h]
  · rw [renewLock_stops_at_failure l goods rest f st hg hb,
      renewLock_stops_at_failure l goods rest2 f st hg hb]

/-- Concrete locker used by the C6 witness. -/
def c6Locker : Locker := NewLocker "job" "tok" 30

/-- C6 witness: one successful renewal tick (store still holds `"tok"`),
then a tick observing a foreign value `"other"`: the loop performs one
renewal, cancels at the second tick, and the trailing context-done event is
never examined (dropping it leaves the trace unchanged). -/
theorem c6_renewal_loop_witness :
    (NewLocker "job" "tok" 30).renewInterval = 30 / 3 ∧
    (compareExtend (some ("tok", 9)) "tok" 30).1 =
      (if holdsToken (some ("tok", 9)) "tok" then some ("tok", 30)
       else some ("tok", 9)) ∧
    c6Locker.renewLock
        ([RenewEvent.tick none (some ("tok", 9))] ++
          RenewEvent.tick none (some ("other", 9)) :: [RenewEvent.ctxDone]) =
      RenewTrace.mk true [RenewEvent.tick none (some ("tok", 9))].length
        ([RenewEvent.tick none (some ("tok", 9))].length + 1) ∧
    c6Locker.renewLock
        ([RenewEvent.tick none (some ("tok", 9))] ++
          RenewEvent.tick none (some ("other", 9)) :: [RenewEvent.ctxDone]) =
      c6Locker.renewLock
        ([RenewEvent.tick none (some ("tok", 9))] ++
          RenewEvent.tick none (some ("other", 9)) :: []) :=
  c6_renewal_loop "job" "tok" 30 c6Locker
    [RenewEvent.tick none (some ("tok", 9))] [RenewEvent.ctxDone] []
    none (some ("other", 9)) (some ("tok", 9)) "tok" 30
    (by decide) (by decide)

/-- Concrete worker used by the C7 counterexample: tick interval five
seconds, timeout one second. -/
def c7Worker : Worker := (NewWorker "job" (5 * second)).Timeout second

/-- C7 counterexample: the claim says the derived context's deadline is
exactly the configured timeout.  With a one-second timeout the code calls
`context.WithTimeout(ctx, worker.timeout+time.Second)`, so the deadline is
two seconds, not the configured one second. -/
theorem c7_timeout_counterexample :
    (c7Worker.runAction [] none 0).2.ctxDeadline = some (second + second) ∧
    (c7Worker.runAction [] none 0).2.ctxDeadline ≠ some c7Worker.timeout := by
  refine ⟨rfl, by decide⟩

/-- C7 amended: with a timeout configured the action's context carries the
deadline `timeout + one second`; with no timeout the context is unbounded;
and the scheduler loop's behaviour is independent of the timeout field (the
bounded context governs only the action's execution). -/
theorem c7_timeout_amended (w wz : Worker) (b : List (Option GoErr))
    (a : Option GoErr) (n t1 t2 : Nat) (evs : List SchedEvent)
    (h : 0 < w.timeout) (hz : wz.timeout = 0) :
    (w.runAction b a n).2.ctxDeadline = some (w.timeout + second) ∧
    (wz.runAction b a n).2.ctxDeadline = none ∧
    Worker.runLoop (Worker.mk w.name w.fromStart w.duration t1 w.errorHandler) evs =
      Worker.runLoop (Worker.mk w.name w.fromStart w.duration t2 w.errorHandler) evs := by
  refine ⟨?_, ?_, runLoop_timeout_irrelevant w t1 t2 evs⟩
  · by_cases hb : (runBefores b).2 <;> simp [Worker.runAction, h, hb]
  · by_cases hb : (runBefores b).2 <;> simp [Worker.runAction, hz, hb]

/-- C7 witness: a worker with a one-second timeout gets deadline two
seconds, a fresh worker (no timeout) gets an unbounded context, and two
timeout values produce identical loop traces on a tick followed by external
cancellation. -/
theorem c7_timeout_amended_witness :
    (c7Worker.runAction [] none 0).2.ctxDeadline = some (c7Worker.timeout + second) ∧
    ((NewWorker "z" 5).runAction [] none 0).2.ctxDeadline = none ∧
    Worker.runLoop
        (Worker.mk c7Worker.name c7Worker.fromStart c7Worker.duration 0
          c7Worker.errorHandler)
        [SchedEvent.tick [] (some (GoErr.msg "boom")) 1, SchedEvent.ctxDone] =
      Worker.runLoop
        (Worker.mk c7Worker.name c7Worker.fromStart c7Worker.duration second
          c7Worker.errorHandler)
        [SchedEvent.tick [] (some (GoErr.msg "boom")) 1, SchedEvent.ctxDone] :=
  c7_timeout_amended c7Worker (NewWorker "z" 5) [] none 0 0 second
    [SchedEvent.tick [] (some (GoErr.msg "boom")) 1, SchedEvent.ctxDone]
    (by decide) rfl

/-- C8: once the loop's select resolves to a stop event (external
cancellation or the internal stopper) after any number of plain ticks, the
loop signals `done` exactly once, runs exactly the ticks that preceded the
stop event, and never examines anything after it — no further ticks, and the
completion signal fires once. -/
theorem c8_stop_terminal (w : Worker) (pre rest : List SchedEvent) (s : SchedEvent)
    (hpre : ∀ e ∈ pre, isTick e = true) (hs : isStopEvent s = true) :
    w.runLoop (pre ++ s :: rest) = LoopTrace.mk 1 pre.length 0 0 := by
  induction pre with
  | nil =>
    cases s with
    | ctxDone => rfl
    | stopSig => rfl
    | tick b a n => simp [isStopEvent] at hs
  | cons e p ih =>
    have he := hpre e (List.mem_cons_self e p)
    have hr := ih (fun x hx => hpre x (List.mem_cons_of_mem e hx))
    cases e with
    | ctxDone => simp [isTick] at he
    | stopSig => simp [isTick] at he
    | tick b a n => simp [Worker.runLoop, runAction_fst_none, hr]

/-- C8 witness: one tick, then external cancellation, then a pending tick
that is never executed: the trace shows one done signal and a single tick,
for either stop kind. -/
theorem c8_stop_terminal_witness :
    Worker.runLoop (NewWorker "w" 5)
        ([SchedEvent.tick [] (some (GoErr.msg "boom")) 1] ++
          SchedEvent.ctxDone :: [SchedEvent.tick [] none 0]) =
      LoopTrace.mk 1 [SchedEvent.tick [] (some (GoErr.msg "boom")) 1].length 0 0 :=
  c8_stop_terminal (NewWorker "w" 5)
    [SchedEvent.tick [] (some (GoErr.msg "boom")) 1]
    [SchedEvent.tick [] none 0] SchedEvent.ctxDone (by decide) (by decide)

/-- C9: `IsLocked` returns `false` whenever the store read errors (a store
failure is indistinguishable from not owning the lock), and returns `true`
exactly when the read succeeds with this instance's token as the value. -/
theorem c9_islocked_read (l : Locker) (e : String) (r : Except String String) :
    l.IsLocked (Except.error e) = false ∧
    (l.IsLocked r = true ↔ r = Except.ok l.lockValue) := by
  refine ⟨rfl, ?_⟩
  cases r with
  | error e2 => simp [Locker.IsLocked]
  | ok v => simp [Locker.IsLocked]

/-- C10: the watcher middleware returns `ErrLocked` exactly when `IsLocked`
reports that this instance does not own the lock, and starts the background
monitor exactly when ownership is confirmed; fed into the before-middleware
walk, its `ErrLocked` marks the tick as skipped while its nil result lets
the walk continue. -/
theorem c10_watcher_middleware (l : Locker) (r : Except String String)
    (bs : List (Option GoErr)) :
    ((CancelRunningWorker.Middleware l r).err = some GoErr.errLocked ↔
      l.IsLocked r = false) ∧
    (CancelRunningWorker.Middleware l r).monitorStarted = l.IsLocked r ∧
    runBefores ((CancelRunningWorker.Middleware l r).err :: bs) =
      (if l.IsLocked r then ((runBefores bs).1 + 1, (runBefores bs).2)
       else (1, true)) := by
  by_cases h : l.IsLocked r = true
  · simp [CancelRunningWorker.Middleware, h, runBefores]
  · simp only [Bool.not_eq_true] at h
    simp [CancelRunningWorker.Middleware, h, runBefores]
